import Mathlib

/-!
Verification development for the project-management core of an
authentication-as-a-service backend (`packages/stack-server/src/lib/projects.tsx`).

The file shallowly embeds the source module: the Prisma-backed storage is a
record of row lists (`Store`), each exported function becomes a Lean function
(stateful ones pass the store explicitly and return the updated store),
JavaScript runtime values that the source inspects dynamically (the
administrator `serverMetadata` blob) are modelled by a JSON-like inductive
`JsValue`, and thrown exceptions become `Except String` results.  The
collaborator modules `access-token` and `users` are not part of the provided
sources, so `isProjectAdmin` takes the corresponding functions as parameters
and the theorems quantify over them.
-/

/-! ## Provider code mappers (projects.tsx lines 12-46) -/

inductive ProxiedOauthProviderType where
  | GITHUB
  | GOOGLE
  | FACEBOOK
  | MICROSOFT
deriving DecidableEq, Repr

inductive StandardOauthProviderType where
  | GITHUB
  | GOOGLE
  | FACEBOOK
  | MICROSOFT
deriving DecidableEq, Repr

/-- `toDBSharedProvider` (lines 12-19).  The TypeScript version is a keyed
lookup total on the closed union type `SharedProvider`; on a `String` domain an
out-of-vocabulary input yields `none` (TypeScript `undefined`). -/
def toDBSharedProvider : String → Option ProxiedOauthProviderType
  | "shared-github" => some .GITHUB
  | "shared-google" => some .GOOGLE
  | "shared-facebook" => some .FACEBOOK
  | "shared-microsoft" => some .MICROSOFT
  | _ => none

/-- `toDBStandardProvider` (lines 21-28). -/
def toDBStandardProvider : String → Option StandardOauthProviderType
  | "github" => some .GITHUB
  | "facebook" => some .FACEBOOK
  | "google" => some .GOOGLE
  | "microsoft" => some .MICROSOFT
  | _ => none

/-- `fromDBSharedProvider` (lines 30-37). -/
def fromDBSharedProvider : ProxiedOauthProviderType → String
  | .GITHUB => "shared-github"
  | .GOOGLE => "shared-google"
  | .FACEBOOK => "shared-facebook"
  | .MICROSOFT => "shared-microsoft"

/-- `fromDBStandardProvider` (lines 39-46). -/
def fromDBStandardProvider : StandardOauthProviderType → String
  | .GITHUB => "github"
  | .FACEBOOK => "facebook"
  | .GOOGLE => "google"
  | .MICROSOFT => "microsoft"

/-- Modelled from the spec: the closed vocabulary `sharedProviders` of external
shared-provider names.  It is declared in the `stack-shared` package
(`interface/clientInterface`), which is not among the provided sources; the
spec enumerates its members (`shared-` counterparts of the four families). -/
def sharedProviders : List String :=
  ["shared-github", "shared-google", "shared-facebook", "shared-microsoft"]

/-- Modelled from the spec: the closed vocabulary `standardProviders` of
external standard-provider names, declared in the `stack-shared` package. -/
def standardProviders : List String :=
  ["github", "facebook", "google", "microsoft"]

/-! ## JavaScript runtime values

The administrator metadata blob is inspected dynamically (`typeof`, the `in`
operator, optional chaining, `??`).  `JsValue` models the JSON values such a
blob can hold, plus `undefined`. -/

inductive JsValue where
  | undefined
  | null
  | bool (b : Bool)
  | num (n : Int)
  | str (s : String)
  | arr (elems : List JsValue)
  | obj (fields : List (String × JsValue))

/-- `typeof v === "object"`: true for `null`, arrays and plain objects. -/
def jsTypeofIsObject : JsValue → Bool
  | .null => true
  | .arr _ => true
  | .obj _ => true
  | _ => false

/-- JavaScript falsiness (`!v`). -/
def jsFalsy : JsValue → Bool
  | .undefined => true
  | .null => true
  | .bool b => !b
  | .num n => n == 0
  | .str s => s == ""
  | _ => false

/-- The `in` operator: key presence on a plain object. -/
def jsHasKey : JsValue → String → Bool
  | .obj fields, k => fields.any (fun f => f.1 == k)
  | _, _ => false

/-- Optional chaining `v?.k`: the field value on an object, `undefined`
otherwise. -/
def jsGetOpt : JsValue → String → JsValue
  | .obj fields, k => ((fields.find? (fun f => f.1 == k)).map Prod.snd).getD .undefined
  | _, _ => .undefined

/-- Nullish (`null` or `undefined`), the guard of `??`. -/
def jsNullish : JsValue → Bool
  | .undefined => true
  | .null => true
  | _ => false

/-- The nullish-coalescing operator `a ?? b`. -/
def jsCoalesce (a b : JsValue) : JsValue := if jsNullish a then b else a

/-- `isStringArray` (lines 390-392): an array whose every element is a string. -/
def isStringArray : JsValue → Bool
  | .arr elems => elems.all (fun v => match v with | .str _ => true | _ => false)
  | _ => false

/-- Extract the strings of a `JsValue` known to be a string array. -/
def asStringList : JsValue → List String
  | .arr elems => elems.filterMap (fun v => match v with | .str s => some s | _ => none)
  | _ => []

/-! ## Access guard (projects.tsx lines 89-121) -/

/-- The successful result of `decodeAccessToken` (collaborator module). -/
structure DecodedAccessToken where
  userId : String
  projectId : String

/-- `ServerUserJson` as consumed here: identity, owning project context, and
the opaque server metadata blob. -/
structure ServerUserJson where
  id : String
  projectId : String
  serverMetadata : JsValue

/-- `listProjectIds` (lines 110-121).  Thrown errors become `Except.error`. -/
def listProjectIds (projectUser : ServerUserJson) : Except String (List String) :=
  let serverMetadata := projectUser.serverMetadata
  if !(jsTypeofIsObject serverMetadata)
      || !(jsFalsy serverMetadata || jsHasKey serverMetadata "managedProjectIds") then
    .error "Invalid server metadata, did something go wrong?"
  else
    let managedProjectIds :=
      jsCoalesce (jsGetOpt serverMetadata "managedProjectIds") (.arr [])
    if !(isStringArray managedProjectIds) then
      .error "Invalid server metadata, did something go wrong? Expected string array"
    else
      .ok (asStringList managedProjectIds)

/-- `isProjectAdmin` (lines 89-108).  `decodeAccessToken` and `getServerUser`
live in collaborator modules not among the sources, so they are parameters: a
decoding failure (the caught exception) is `none`, a missing user is `none`.
Only the decoding step is inside the `try`; an error thrown by
`listProjectIds` propagates. -/
def isProjectAdmin (decodeAccessToken : String → Option DecodedAccessToken)
    (getServerUser : String → String → Option ServerUserJson)
    (projectId : String) (adminAccessToken : String) : Except String Bool :=
  match decodeAccessToken adminAccessToken with
  | none => .ok false
  | some decoded =>
    if decoded.projectId != "internal" then
      .ok false
    else
      match getServerUser "internal" decoded.userId with
      | none => .ok false
      | some projectUser =>
        match listProjectIds projectUser with
        | .error e => .error e
        | .ok allProjects => .ok (allProjects.contains projectId)

/-! ## Relational storage model

Row types mirror the Prisma tables touched by `projects.tsx` with the columns
this module reads or writes.  A project owns exactly one config (a required
relation), so the config row is embedded in the project row; it keeps its own
id, which is the foreign key of domain, provider and email rows.  The user
count (`_count.users`) is carried as a field. -/

structure ProjectConfigRow where
  id : String
  allowLocalhost : Bool
  credentialEnabled : Bool
deriving DecidableEq, Repr

structure ProjectRow where
  id : String
  displayName : String
  description : Option String
  isProductionMode : Bool
  createdAtMillis : Int
  userCount : Nat
  config : ProjectConfigRow
deriving DecidableEq, Repr

structure ProjectDomainRow where
  projectConfigId : String
  domain : String
  handlerPath : String
deriving DecidableEq, Repr

structure StandardOauthConfigRow where
  type : StandardOauthProviderType
  clientId : String
  clientSecret : String
  tenantId : Option String
deriving DecidableEq, Repr

structure OauthProviderConfigRow where
  projectConfigId : String
  id : String
  proxiedOauthConfig : Option ProxiedOauthProviderType
  standardOauthConfig : Option StandardOauthConfigRow
deriving DecidableEq, Repr

structure StandardEmailServiceConfigRow where
  host : String
  port : Int
  username : String
  password : String
  senderEmail : String
deriving DecidableEq, Repr

structure EmailServiceConfigRow where
  projectConfigId : String
  senderName : String
  proxiedEmailServiceConfig : Bool
  standardEmailServiceConfig : Option StandardEmailServiceConfigRow
deriving DecidableEq, Repr

structure ProjectUserRow where
  projectId : String
  projectUserId : String
  serverMetadata : JsValue

structure Store where
  projects : List ProjectRow
  domains : List ProjectDomainRow
  oauthProviderConfigs : List OauthProviderConfigRow
  emailServiceConfigs : List EmailServiceConfigRow
  projectUsers : List ProjectUserRow

/-- The payload of a project fetched with `fullProjectInclude` (lines 49-87):
the project row together with its config's provider rows, optional email
service row and domain rows. -/
structure ProjectDB where
  project : ProjectRow
  oauthProviderConfigs : List OauthProviderConfigRow
  emailServiceConfig : Option EmailServiceConfigRow
  domains : List ProjectDomainRow

/-- `prismaClient.project.findUnique({where: {id}, include: fullProjectInclude})`:
look up the project row and gather the related rows of its config, in stored
order. -/
def findFullProject (s : Store) (projectId : String) : Option ProjectDB :=
  (s.projects.find? (fun p => p.id == projectId)).map (fun p =>
    { project := p
      oauthProviderConfigs :=
        s.oauthProviderConfigs.filter (fun r => r.projectConfigId == p.config.id)
      emailServiceConfig :=
        s.emailServiceConfigs.find? (fun r => r.projectConfigId == p.config.id)
      domains := s.domains.filter (fun r => r.projectConfigId == p.config.id) })

/-! ## API-facing JSON shapes (stack-shared interfaces, as consumed here) -/

structure DomainJson where
  domain : String
  handlerPath : String
deriving DecidableEq, Repr

/-- One entry of `evaluatedConfig.oauthProviders`.  A shared entry carries only
id and type; a standard entry additionally carries client id, client secret
and (optionally) tenant id. -/
structure OauthProviderConfigJson where
  id : String
  type : String
  clientId : Option String := none
  clientSecret : Option String := none
  tenantId : Option String := none
deriving DecidableEq, Repr

/-- `EmailConfigJson`: the tagged union `{type: "shared", ...}` /
`{type: "standard", ...}`. -/
inductive EmailConfigJson where
  | shared (senderName : String)
  | standard (host : String) (port : Int) (username : String) (password : String)
      (senderEmail : String) (senderName : String)
deriving DecidableEq, Repr

/-- The `type` discriminant of an `EmailConfigJson` value. -/
def EmailConfigJson.typeTag : EmailConfigJson → String
  | .shared _ => "shared"
  | .standard _ _ _ _ _ _ => "standard"

structure EvaluatedConfigJson where
  id : String
  allowLocalhost : Bool
  credentialEnabled : Bool
  domains : List DomainJson
  oauthProviders : List OauthProviderConfigJson
  emailConfig : Option EmailConfigJson
deriving DecidableEq, Repr

structure ProjectJson where
  id : String
  displayName : String
  description : Option String
  createdAtMillis : Int
  userCount : Nat
  isProductionMode : Bool
  evaluatedConfig : EvaluatedConfigJson
deriving DecidableEq, Repr

/-! ## Project assembler (`projectJsonFromDbType`, lines 328-388) -/

/-- The email-config paragraph (lines 329-350): sequential assignment, so a
standard sub-record overwrites the shared view produced just before it. -/
def emailConfigFromDb : Option EmailServiceConfigRow → Option EmailConfigJson
  | none => none
  | some esc =>
    let fromProxied : Option EmailConfigJson :=
      if esc.proxiedEmailServiceConfig then some (.shared esc.senderName) else none
    match esc.standardEmailServiceConfig with
    | some st =>
        some (.standard st.host st.port st.username st.password st.senderEmail esc.senderName)
    | none => fromProxied

/-- The body of the `flatMap` over provider rows (lines 366-384): a proxied
sub-record wins, else a standard sub-record (whose empty-string or null
`tenantId` maps to `undefined` via `|| undefined`), else the row is skipped
with a logged error. -/
def oauthProviderJsonFromDb (provider : OauthProviderConfigRow) : List OauthProviderConfigJson :=
  match provider.proxiedOauthConfig with
  | some t => [{ id := provider.id, type := fromDBSharedProvider t }]
  | none =>
    match provider.standardOauthConfig with
    | some st =>
        [{ id := provider.id
           type := fromDBStandardProvider st.type
           clientId := some st.clientId
           clientSecret := some st.clientSecret
           tenantId := match st.tenantId with
             | some t => if t == "" then none else some t
             | none => none }]
    | none => []

/-- `projectJsonFromDbType` (lines 328-388). -/
def projectJsonFromDbType (project : ProjectDB) : ProjectJson :=
  { id := project.project.id
    displayName := project.project.displayName
    description := project.project.description
    createdAtMillis := project.project.createdAtMillis
    userCount := project.project.userCount
    isProductionMode := project.project.isProductionMode
    evaluatedConfig :=
      { id := project.project.config.id
        allowLocalhost := project.project.config.allowLocalhost
        credentialEnabled := project.project.config.credentialEnabled
        domains := project.domains.map (fun d => { domain := d.domain, handlerPath := d.handlerPath })
        oauthProviders := project.oauthProviderConfigs.flatMap oauthProviderJsonFromDb
        emailConfig := emailConfigFromDb project.emailServiceConfig } }

/-! ## Project reconciler (`updateProject`, lines 215-326) and `getProject` -/

/-- One entry of `ProjectUpdateOptions.config.oauthProviders`
(`OauthProviderUpdateOptions`, from the admin interface of `stack-shared`):
`type` is a free string classified at use site; the credential fields are
read only for standard-typed entries. -/
structure OauthProviderUpdateOptions where
  id : String
  type : String
  clientId : String := ""
  clientSecret : String := ""
  tenantId : Option String := none
deriving DecidableEq, Repr

structure ProjectUpdateConfigOptions where
  domains : Option (List DomainJson) := none
  oauthProviders : Option (List OauthProviderUpdateOptions) := none
  credentialEnabled : Option Bool := none
deriving DecidableEq, Repr

structure ProjectUpdateOptions where
  config : Option ProjectUpdateConfigOptions := none
  isProductionMode : Option Bool := none
deriving DecidableEq, Repr

/-- The body of the `forEach` over submitted provider entries (lines 261-295):
a `sharedProviders` member creates a row with only a proxied sub-record, a
`standardProviders` member creates a row with a standard sub-record carrying
client id, client secret and tenant id, and anything else is skipped with a
logged error (`console.error`), creating nothing. -/
def oauthRowsFromUpdateEntry (configId : String)
    (providerConfig : OauthProviderUpdateOptions) : List OauthProviderConfigRow :=
  if sharedProviders.contains providerConfig.type then
    [{ projectConfigId := configId
       id := providerConfig.id
       proxiedOauthConfig := toDBSharedProvider providerConfig.type
       standardOauthConfig := none }]
  else if standardProviders.contains providerConfig.type then
    [{ projectConfigId := configId
       id := providerConfig.id
       proxiedOauthConfig := none
       standardOauthConfig := (toDBStandardProvider providerConfig.type).map (fun t =>
         { type := t
           clientId := providerConfig.clientId
           clientSecret := providerConfig.clientSecret
           tenantId := providerConfig.tenantId }) }]
  else
    []

/-- `updateProject` (lines 215-326).  The accumulated statement list executed
by `prismaClient.$transaction` is applied to the store section by section, in
order.  Note that the domains section (lines 231-254) issues its `deleteMany`
and its `create`s with `projectConfigId: projectId` — the project id, not
`project.config.id` as the provider section uses (the `currentDomains` fetch
by `project.config.id` at lines 233-235 is dead: its result is never read). -/
def updateProject (s : Store) (projectId : String) (options : ProjectUpdateOptions) :
    Store × Option ProjectJson :=
  match findFullProject s projectId with
  | none => (s, none)
  | some project =>
    let s1 :=
      match options.config.bind ProjectUpdateConfigOptions.domains with
      | none => s
      | some newDomains =>
        { s with domains :=
            s.domains.filter (fun d => d.projectConfigId != projectId)
              ++ newDomains.map (fun domainConfig =>
                   { projectConfigId := projectId
                     domain := domainConfig.domain
                     handlerPath := domainConfig.handlerPath }) }
    let s2 :=
      match options.config.bind ProjectUpdateConfigOptions.oauthProviders with
      | none => s1
      | some providerConfigs =>
        { s1 with oauthProviderConfigs :=
            s1.oauthProviderConfigs.filter (fun r => r.projectConfigId != project.project.config.id)
              ++ providerConfigs.flatMap (oauthRowsFromUpdateEntry project.project.config.id) }
    let s3 :=
      match options.config.bind ProjectUpdateConfigOptions.credentialEnabled with
      | none => s2
      | some ce =>
        { s2 with projects := s2.projects.map (fun p =>
            if p.config.id == project.project.config.id then
              { p with config := { p.config with credentialEnabled := ce } }
            else p) }
    let s4 :=
      match options.isProductionMode with
      | none => s3
      | some pm =>
        { s3 with projects := s3.projects.map (fun p =>
            if p.id == projectId then { p with isProductionMode := pm } else p) }
    match findFullProject s4 projectId with
    | none => (s4, none)
    | some updatedProject => (s4, some (projectJsonFromDbType updatedProject))

/-- `getProject` (lines 211-213): literally `updateProject(projectId, {})`. -/
def getProject (s : Store) (projectId : String) : Store × Option ProjectJson :=
  updateProject s projectId {}

/-! ## Project creator (`createProject`, lines 138-209) -/

/-- `typedToUppercase` (a stack-shared string helper, not among the sources)
as applied at line 162, where its argument ranges over the four family-name
literals and its result is typed as the proxied provider enum: each family
name maps to its uppercase enum member. -/
def typedToUppercaseProxied : String → Option ProxiedOauthProviderType
  | "github" => some .GITHUB
  | "google" => some .GOOGLE
  | "facebook" => some .FACEBOOK
  | "microsoft" => some .MICROSOFT
  | _ => none

/-- The object literal `{...spreadFields, k: v}`: an existing key is
overwritten in place, a new key is appended. -/
def jsObjectSet (fields : List (String × JsValue)) (k : String) (v : JsValue) :
    List (String × JsValue) :=
  if fields.any (fun f => f.1 == k) then
    fields.map (fun f => if f.1 == k then (k, v) else f)
  else
    fields ++ [(k, v)]

/-- Array spread `[...v]`: array elements, a string's characters, otherwise a
thrown `TypeError` (non-iterable). -/
def jsSpreadElems : JsValue → Except String (List JsValue)
  | .arr elems => .ok elems
  | .str s => .ok (s.toList.map (fun c => JsValue.str (String.singleton c)))
  | _ => .error "TypeError: value is not iterable"

/-- Lines 185-202: build the updated metadata blob
`{...serverMetadataTx ?? {}, managedProjectIds: [...(serverMetadataTx?.managedProjectIds ?? []), project.id]}`
where `serverMetadataTx = projectUserTx?.serverMetadata ?? {}`. -/
def appendManagedProjectId (rawMetadata : JsValue) (newId : String) :
    Except String JsValue :=
  let serverMetadataTx := jsCoalesce rawMetadata (.obj [])
  let baseFields := match serverMetadataTx with | .obj fields => fields | _ => []
  match jsSpreadElems (jsCoalesce (jsGetOpt serverMetadataTx "managedProjectIds") (.arr [])) with
  | .error e => .error e
  | .ok old =>
    .ok (.obj (jsObjectSet baseFields "managedProjectIds" (.arr (old ++ [.str newId]))))

structure CreateProjectOptions where
  displayName : String
  description : Option String
  allowLocalhost : Bool
  credentialEnabled : Bool
deriving DecidableEq, Repr

/-- `createProject` (lines 138-209).  The generated uuid, the config row id
the database assigns, and the creation timestamp are parameters.  The
returned view is assembled from the created record (whose include carries the
four nested provider stubs, no email config and no domains). -/
def createProject (s : Store) (projectUser : ServerUserJson)
    (freshProjectId freshConfigId : String) (now : Int)
    (projectOptions : CreateProjectOptions) : Except String (Store × ProjectJson) :=
  if projectUser.projectId != "internal" then
    .error "Only internal project users can create projects"
  else
    let newProject : ProjectRow :=
      { id := freshProjectId
        displayName := projectOptions.displayName
        description := projectOptions.description
        isProductionMode := false
        createdAtMillis := now
        userCount := 0
        config :=
          { id := freshConfigId
            allowLocalhost := projectOptions.allowLocalhost
            credentialEnabled := projectOptions.credentialEnabled } }
    let newProviders : List OauthProviderConfigRow :=
      ["github", "facebook", "google", "microsoft"].map (fun pid =>
        { projectConfigId := freshConfigId
          id := pid
          proxiedOauthConfig := typedToUppercaseProxied pid
          standardOauthConfig := none })
    match s.projectUsers.find?
        (fun u => u.projectId == "internal" && u.projectUserId == projectUser.id) with
    | none => .error "findUniqueOrThrow: no ProjectUser found"
    | some projectUserTx =>
      match appendManagedProjectId projectUserTx.serverMetadata freshProjectId with
      | .error e => .error e
      | .ok newMetadata =>
        let s1 : Store :=
          { s with
            projects := s.projects ++ [newProject]
            oauthProviderConfigs := s.oauthProviderConfigs ++ newProviders
            projectUsers := s.projectUsers.map (fun u =>
              if u.projectId == "internal" && u.projectUserId == projectUserTx.projectUserId then
                { u with serverMetadata := newMetadata }
              else u) }
        .ok (s1, projectJsonFromDbType
          { project := newProject
            oauthProviderConfigs := newProviders
            emailServiceConfig := none
            domains := [] })

/-! ## Helper predicates, spec-side definitions and fixtures -/

/-- Whether an `Except` result is a thrown error. -/
def exceptIsError {ε α : Type} : Except ε α → Bool
  | .error _ => true
  | .ok _ => false

/-- The spec-side reading of `getProject` (refinement claim): a pure read-only
lookup — fetch the full record, assemble it, write nothing. -/
def getProjectSpec (s : Store) (projectId : String) : Store × Option ProjectJson :=
  (s, (findFullProject s projectId).map projectJsonFromDbType)

def exampleProjectRow : ProjectRow :=
  { id := "proj-1"
    displayName := "Example"
    description := none
    isProductionMode := false
    createdAtMillis := 0
    userCount := 0
    config := { id := "cfg-1", allowLocalhost := true, credentialEnabled := true } }

def exampleStore : Store :=
  { projects := [exampleProjectRow]
    domains := [{ projectConfigId := "cfg-1", domain := "example.com", handlerPath := "/handler" }]
    oauthProviderConfigs := []
    emailServiceConfigs := []
    projectUsers := [] }

def adminUser : ServerUserJson :=
  { id := "admin", projectId := "internal", serverMetadata := .null }

def adminStore : Store :=
  { exampleStore with
    projectUsers := [{ projectId := "internal", projectUserId := "admin", serverMetadata := .null }] }

def exampleCreateOptions : CreateProjectOptions :=
  { displayName := "New Project", description := none, allowLocalhost := true, credentialEnabled := false }

/-- The concrete result of a successful `createProject` run, for witnesses. -/
def createdExample : Store × ProjectJson :=
  match createProject adminStore adminUser "proj-2" "cfg-2" 5 exampleCreateOptions with
  | .ok r => r
  | .error _ =>
    (adminStore, projectJsonFromDbType
      { project := exampleProjectRow, oauthProviderConfigs := [], emailServiceConfig := none, domains := [] })

/-- An administrator whose metadata is an object with no `managedProjectIds`
key. -/
def metadataMissingKeyUser : ServerUserJson :=
  { id := "admin", projectId := "internal", serverMetadata := .obj [("theme", .str "dark")] }

/-- A provider update mixing a shared entry, an out-of-vocabulary entry and a
standard entry. -/
def mixedProviderUpdate : List OauthProviderUpdateOptions :=
  [{ id := "gh", type := "shared-github" },
   { id := "weird", type := "oidc" },
   { id := "goog", type := "google", clientId := "ci", clientSecret := "cs", tenantId := some "t" }]

def decodeOracle : String → Option DecodedAccessToken :=
  fun _ => some { userId := "admin", projectId := "internal" }

def userOracle : String → String → Option ServerUserJson :=
  fun _ userId => some
    { id := userId
      projectId := "internal"
      serverMetadata := .obj [("managedProjectIds", .arr [.str "proj-1"])] }

/-- The full record `findFullProject` yields on `exampleStore` / "proj-1". -/
def exampleProjectDB : ProjectDB :=
  { project := exampleProjectRow
    oauthProviderConfigs := []
    emailServiceConfig := none
    domains := [{ projectConfigId := "cfg-1", domain := "example.com", handlerPath := "/handler" }] }

/-- The empty store, for not-found witnesses. -/
def emptyStore : Store :=
  { projects := [], domains := [], oauthProviderConfigs := [], emailServiceConfigs := [], projectUsers := [] }

/-! ## Theorems -/

/-- C4: on the closed shared and standard vocabularies, the external-to-internal
and internal-to-external provider mappers are mutually inverse, in both
directions. -/
theorem provider_mappers_roundtrip :
    (∀ s ∈ sharedProviders, (toDBSharedProvider s).map fromDBSharedProvider = some s)
    ∧ (∀ t : ProxiedOauthProviderType, toDBSharedProvider (fromDBSharedProvider t) = some t)
    ∧ (∀ s ∈ standardProviders, (toDBStandardProvider s).map fromDBStandardProvider = some s)
    ∧ (∀ t : StandardOauthProviderType, toDBStandardProvider (fromDBStandardProvider t) = some t) := by
  refine ⟨?_, ?_, ?_, ?_⟩
  · intro s hs
    simp only [sharedProviders, List.mem_cons, List.not_mem_nil, or_false] at hs
    rcases hs with h | h | h | h <;> subst h <;> rfl
  · intro t
    cases t <;> rfl
  · intro s hs
    simp only [standardProviders, List.mem_cons, List.not_mem_nil, or_false] at hs
    rcases hs with h | h | h | h <;> subst h <;> rfl
  · intro t
    cases t <;> rfl

/-- Witness for C4 at concrete vocabulary members. -/
theorem provider_mappers_roundtrip_witness :
    (toDBSharedProvider "shared-google").map fromDBSharedProvider = some "shared-google"
    ∧ toDBStandardProvider (fromDBStandardProvider .MICROSOFT) = some .MICROSOFT :=
  ⟨provider_mappers_roundtrip.1 "shared-google" (by simp [sharedProviders]),
   provider_mappers_roundtrip.2.2.2 .MICROSOFT⟩

/-- C1: `isProjectAdmin` answers `.ok true` exactly when the token decodes, its
context is "internal", its subject resolves to an administrator, and the target
project id belongs to that administrator's managed list; each of the four
failed checks alone yields `.ok false`. -/
theorem isProjectAdmin_spec (decode : String → Option DecodedAccessToken)
    (getUser : String → String → Option ServerUserJson)
    (projectId adminAccessToken : String) :
    (isProjectAdmin decode getUser projectId adminAccessToken = .ok true ↔
      ∃ d, decode adminAccessToken = some d ∧ d.projectId = "internal" ∧
        ∃ u, getUser "internal" d.userId = some u ∧
          ∃ l, listProjectIds u = .ok l ∧ projectId ∈ l)
    ∧ (decode adminAccessToken = none →
        isProjectAdmin decode getUser projectId adminAccessToken = .ok false)
    ∧ (∀ d, decode adminAccessToken = some d → d.projectId ≠ "internal" →
        isProjectAdmin decode getUser projectId adminAccessToken = .ok false)
    ∧ (∀ d, decode adminAccessToken = some d → d.projectId = "internal" →
        getUser "internal" d.userId = none →
        isProjectAdmin decode getUser projectId adminAccessToken = .ok false)
    ∧ (∀ d u l, decode adminAccessToken = some d → d.projectId = "internal" →
        getUser "internal" d.userId = some u → listProjectIds u = .ok l → projectId ∉ l →
        isProjectAdmin decode getUser projectId adminAccessToken = .ok false) := by
  unfold isProjectAdmin
  cases hdec : decode adminAccessToken with
  | none => simp
  | some d =>
    by_cases hd : d.projectId = "internal"
    · cases hu : getUser "internal" d.userId with
      | none => simp [hd, hu]
      | some u =>
        cases hl : listProjectIds u with
        | error e =>
          simp [hd, hu, hl]
          intro d1 u1 l h1 h2 h3 h4
          subst h1
          rw [hu] at h3
          injection h3 with h3
          subst h3
          rw [hl] at h4
          exact Except.noConfusion h4
        | ok l =>
          simp [hd, hu, hl, List.elem_iff]
          intro d1 u1 l1 h1 h2 h3 h4 h5
          subst h1
          rw [hu] at h3
          injection h3 with h3
          subst h3
          rw [hl] at h4
          injection h4 with h4
          subst h4
          exact h5
    · simp [hd]

/-- Witness for C1: the success case at a concrete token, oracle pair and
managed list. -/
theorem isProjectAdmin_spec_witness :
    isProjectAdmin decodeOracle userOracle "proj-1" "token" = .ok true :=
  (isProjectAdmin_spec decodeOracle userOracle "proj-1" "token").1.mpr
    ⟨{ userId := "admin", projectId := "internal" }, rfl, rfl,
     { id := "admin"
       projectId := "internal"
       serverMetadata := .obj [("managedProjectIds", .arr [.str "proj-1"])] }, rfl,
     ["proj-1"], rfl, by simp⟩

/-- C5 counterexample: for an administrator whose metadata is an object with no
`managedProjectIds` key, the claim predicts the empty default list (so a plain
`false` answer from the guard), but `listProjectIds` throws, and the guard
propagates the hard failure. -/
theorem listProjectIds_missing_key_counterexample :
    listProjectIds metadataMissingKeyUser
      = .error "Invalid server metadata, did something go wrong?"
    ∧ isProjectAdmin (fun _ => some { userId := "admin", projectId := "internal" })
        (fun _ _ => some metadataMissingKeyUser) "proj-1" "token"
      = .error "Invalid server metadata, did something go wrong?" :=
  ⟨rfl, rfl⟩

/-- C5 amended: the guard fails hard exactly when the metadata fails the
JavaScript `typeof`-object test, or is a truthy object lacking the
`managedProjectIds` key, or that key's value (nullish defaulting to the empty
array) is not a string array; in the remaining shapes the string list is read
and returned, and a hard failure of `listProjectIds` propagates out of
`isProjectAdmin` instead of becoming `false`. -/
theorem listProjectIds_error_characterization (u : ServerUserJson) :
    (exceptIsError (listProjectIds u) = true ↔
      (jsTypeofIsObject u.serverMetadata = false
        ∨ (jsFalsy u.serverMetadata = false
            ∧ jsHasKey u.serverMetadata "managedProjectIds" = false)
        ∨ isStringArray
            (jsCoalesce (jsGetOpt u.serverMetadata "managedProjectIds") (.arr [])) = false))
    ∧ (exceptIsError (listProjectIds u) = false →
        listProjectIds u
          = .ok (asStringList (jsCoalesce (jsGetOpt u.serverMetadata "managedProjectIds") (.arr []))))
    ∧ (∀ decode getUser pid tok d, decode tok = some d → d.projectId = "internal" →
        getUser "internal" d.userId = some u →
        exceptIsError (listProjectIds u) = true →
        ∃ e, isProjectAdmin decode getUser pid tok = .error e) := by
  refine ⟨?_, ?_, ?_⟩
  · unfold listProjectIds
    rcases hA : jsTypeofIsObject u.serverMetadata <;>
      rcases hB : jsFalsy u.serverMetadata <;>
        rcases hC : jsHasKey u.serverMetadata "managedProjectIds" <;>
          rcases hD : isStringArray
              (jsCoalesce (jsGetOpt u.serverMetadata "managedProjectIds") (.arr [])) <;>
            simp [hA, hB, hC, hD, exceptIsError]
  · unfold listProjectIds
    rcases hA : jsTypeofIsObject u.serverMetadata <;>
      rcases hB : jsFalsy u.serverMetadata <;>
        rcases hC : jsHasKey u.serverMetadata "managedProjectIds" <;>
          rcases hD : isStringArray
              (jsCoalesce (jsGetOpt u.serverMetadata "managedProjectIds") (.arr [])) <;>
            simp [hA, hB, hC, hD, exceptIsError]
  · intro decode getUser pid tok d hdec hd hu herr
    cases hl : listProjectIds u with
    | error e =>
      refine ⟨e, ?_⟩
      unfold isProjectAdmin
      simp [hdec, hd, hu, hl]
    | ok l => rw [hl] at herr; exact absurd herr (by simp [exceptIsError])

/-- Witness for C5's amended theorem: a string-typed metadata blob fails the
object test and makes the guard fail hard at concrete oracles. -/
theorem listProjectIds_error_characterization_witness :
    exceptIsError (listProjectIds
      { id := "x", projectId := "internal", serverMetadata := .str "oops" }) = true :=
  (listProjectIds_error_characterization
    { id := "x", projectId := "internal", serverMetadata := .str "oops" }).1.mpr (Or.inl rfl)

/-- C2 (evaluation at the failing input): on a project whose config id
("cfg-1") differs from its project id ("proj-1"), an update carrying only
`domains: []` leaves the config's domain row in storage and in the returned
view, because the delete is keyed `projectConfigId = projectId`; and a
replacement domain is inserted under the project id, not the config id. -/
theorem updateProject_domains_bug_eval :
    (updateProject exampleStore "proj-1" { config := some { domains := some [] } }).1.domains
      = [{ projectConfigId := "cfg-1", domain := "example.com", handlerPath := "/handler" }]
    ∧ ((updateProject exampleStore "proj-1" { config := some { domains := some [] } }).2.map
        (fun j => j.evaluatedConfig.domains))
      = some [{ domain := "example.com", handlerPath := "/handler" }]
    ∧ (updateProject exampleStore "proj-1"
        { config := some { domains := some [{ domain := "new.example.com", handlerPath := "/h" }] } }).1.domains
      = [{ projectConfigId := "cfg-1", domain := "example.com", handlerPath := "/handler" },
         { projectConfigId := "proj-1", domain := "new.example.com", handlerPath := "/h" }] :=
  ⟨rfl, rfl, rfl⟩

/-- C3: whenever `createProject` succeeds, the returned view has
`isProductionMode = false` and exactly four OAuth provider entries, all of
shared type, one per family, regardless of the inputs. -/
theorem createProject_defaults (s : Store) (projectUser : ServerUserJson)
    (freshProjectId freshConfigId : String) (now : Int)
    (projectOptions : CreateProjectOptions) (r : Store × ProjectJson)
    (h : createProject s projectUser freshProjectId freshConfigId now projectOptions = .ok r) :
    r.2.isProductionMode = false
    ∧ r.2.evaluatedConfig.oauthProviders =
        [{ id := "github", type := "shared-github" },
         { id := "facebook", type := "shared-facebook" },
         { id := "google", type := "shared-google" },
         { id := "microsoft", type := "shared-microsoft" }] := by
  unfold createProject at h
  split at h
  · exact Except.noConfusion h
  · split at h
    · exact Except.noConfusion h
    · split at h
      · exact Except.noConfusion h
      · injection h with h
        subst h
        exact ⟨rfl, rfl⟩

/-- Witness for C3 at a concrete store, administrator and inputs. -/
theorem createProject_defaults_witness :
    createdExample.2.isProductionMode = false
    ∧ createdExample.2.evaluatedConfig.oauthProviders =
        [{ id := "github", type := "shared-github" },
         { id := "facebook", type := "shared-facebook" },
         { id := "google", type := "shared-google" },
         { id := "microsoft", type := "shared-microsoft" }] :=
  createProject_defaults adminStore adminUser "proj-2" "cfg-2" 5
    exampleCreateOptions createdExample (by rfl)

/-- C7: `getProject` on a nonexistent id returns null, and `updateProject` on
a nonexistent id with any update (empty or not) returns null and performs no
writes. -/
theorem updateProject_nonexistent (s : Store) (projectId : String)
    (options : ProjectUpdateOptions) (h : findFullProject s projectId = none) :
    updateProject s projectId options = (s, none)
    ∧ getProject s projectId = (s, none) := by
  constructor
  · unfold updateProject
    rw [h]
  · unfold getProject updateProject
    rw [h]

/-- Witness for C7 on the empty store with a non-empty update. -/
theorem updateProject_nonexistent_witness :
    updateProject emptyStore "missing" { isProductionMode := some true } = (emptyStore, none) :=
  (updateProject_nonexistent emptyStore "missing" { isProductionMode := some true } rfl).1

/-- C6: when `oauthProviders` is provided, the reconciler replaces, in that
same call, the config's provider rows by exactly the rows generated per
submitted entry; an entry typed in neither vocabulary generates nothing (it is
skipped, non-fatally), a shared-typed entry generates one row carrying only a
proxied sub-record, and a standard-typed entry generates one row whose
standard sub-record carries the client id, client secret and tenant id. -/
theorem updateProject_oauth_spec (s : Store) (projectId : String)
    (proj : ProjectDB) (cfgOptions : ProjectUpdateConfigOptions)
    (provs : List OauthProviderUpdateOptions) (pm : Option Bool)
    (hfind : findFullProject s projectId = some proj)
    (hprovs : cfgOptions.oauthProviders = some provs) :
    ((updateProject s projectId { config := some cfgOptions, isProductionMode := pm }).1).oauthProviderConfigs
      = s.oauthProviderConfigs.filter (fun r => r.projectConfigId != proj.project.config.id)
          ++ provs.flatMap (oauthRowsFromUpdateEntry proj.project.config.id)
    ∧ (∀ pc ∈ provs, pc.type ∉ sharedProviders → pc.type ∉ standardProviders →
        oauthRowsFromUpdateEntry proj.project.config.id pc = [])
    ∧ (∀ pc ∈ provs, pc.type ∈ sharedProviders →
        (toDBSharedProvider pc.type).isSome = true
        ∧ oauthRowsFromUpdateEntry proj.project.config.id pc
            = [{ projectConfigId := proj.project.config.id
                 id := pc.id
                 proxiedOauthConfig := toDBSharedProvider pc.type
                 standardOauthConfig := none }])
    ∧ (∀ pc ∈ provs, pc.type ∈ standardProviders →
        (toDBStandardProvider pc.type).isSome = true
        ∧ oauthRowsFromUpdateEntry proj.project.config.id pc
            = [{ projectConfigId := proj.project.config.id
                 id := pc.id
                 proxiedOauthConfig := none
                 standardOauthConfig := (toDBStandardProvider pc.type).map (fun t =>
                   { type := t
                     clientId := pc.clientId
                     clientSecret := pc.clientSecret
                     tenantId := pc.tenantId }) }]) := by
  refine ⟨?_, ?_, ?_, ?_⟩
  · obtain ⟨doms, oauths, creds⟩ := cfgOptions
    simp only at hprovs
    subst hprovs
    rcases doms with _ | ds <;> rcases creds with _ | ce <;> rcases pm with _ | pmv <;>
      (simp only [updateProject, hfind, Option.some_bind]; split <;> rfl)
  · intro pc _ h1 h2
    simp [oauthRowsFromUpdateEntry, h1, h2]
  · intro pc _ hmem
    simp only [sharedProviders, List.mem_cons, List.not_mem_nil, or_false] at hmem
    rcases hmem with h | h | h | h <;>
      simp [oauthRowsFromUpdateEntry, h, sharedProviders, standardProviders, toDBSharedProvider]
  · intro pc _ hmem
    simp only [standardProviders, List.mem_cons, List.not_mem_nil, or_false] at hmem
    rcases hmem with h | h | h | h <;>
      simp [oauthRowsFromUpdateEntry, h, sharedProviders, standardProviders, toDBStandardProvider]

/-- Witness for C6 on a mixed update (shared + unknown + standard entries):
the unknown entry is dropped, both valid entries are committed. -/
theorem updateProject_oauth_spec_witness :
    (updateProject exampleStore "proj-1"
      { config := some { oauthProviders := some mixedProviderUpdate } }).1.oauthProviderConfigs
      = [{ projectConfigId := "cfg-1", id := "gh",
           proxiedOauthConfig := some .GITHUB, standardOauthConfig := none },
         { projectConfigId := "cfg-1", id := "goog",
           proxiedOauthConfig := none,
           standardOauthConfig := some
             { type := .GOOGLE, clientId := "ci", clientSecret := "cs", tenantId := some "t" } }] :=
  ((updateProject_oauth_spec exampleStore "proj-1" exampleProjectDB
      { oauthProviders := some mixedProviderUpdate } mixedProviderUpdate none
      rfl rfl).1).trans rfl

/-- C8: in the assembled view, a standard email sub-record always yields the
standard view (overwriting the shared view assigned just before it when both
sub-records are present), and a proxied-only email config yields the shared
view. -/
theorem assembler_email_precedence (p : ProjectDB) (esc : EmailServiceConfigRow)
    (h : p.emailServiceConfig = some esc) :
    (∀ st, esc.standardEmailServiceConfig = some st →
      (projectJsonFromDbType p).evaluatedConfig.emailConfig
        = some (.standard st.host st.port st.username st.password st.senderEmail esc.senderName)
      ∧ ((projectJsonFromDbType p).evaluatedConfig.emailConfig.map EmailConfigJson.typeTag)
          = some "standard")
    ∧ (esc.proxiedEmailServiceConfig = true → esc.standardEmailServiceConfig = none →
        (projectJsonFromDbType p).evaluatedConfig.emailConfig = some (.shared esc.senderName)) := by
  constructor
  · intro st hst
    constructor
    · simp [projectJsonFromDbType, emailConfigFromDb, h, hst]
    · simp [projectJsonFromDbType, emailConfigFromDb, h, hst, EmailConfigJson.typeTag]
  · intro hp hs
    simp [projectJsonFromDbType, emailConfigFromDb, h, hp, hs]

/-- Witness for C8 on a record with both email sub-records populated. -/
theorem assembler_email_precedence_witness :
    (projectJsonFromDbType
      { project := exampleProjectRow
        oauthProviderConfigs := []
        emailServiceConfig := some
          { projectConfigId := "cfg-1", senderName := "Sender"
            proxiedEmailServiceConfig := true
            standardEmailServiceConfig := some
              { host := "smtp.example.com", port := 587, username := "u"
                password := "pw", senderEmail := "send@example.com" } }
        domains := [] }).evaluatedConfig.emailConfig
      = some (.standard "smtp.example.com" 587 "u" "pw" "send@example.com" "Sender") :=
  ((assembler_email_precedence
      { project := exampleProjectRow
        oauthProviderConfigs := []
        emailServiceConfig := some
          { projectConfigId := "cfg-1", senderName := "Sender"
            proxiedEmailServiceConfig := true
            standardEmailServiceConfig := some
              { host := "smtp.example.com", port := 587, username := "u"
                password := "pw", senderEmail := "send@example.com" } }
        domains := [] }
      { projectConfigId := "cfg-1", senderName := "Sender"
        proxiedEmailServiceConfig := true
        standardEmailServiceConfig := some
          { host := "smtp.example.com", port := 587, username := "u"
            password := "pw", senderEmail := "send@example.com" } }
      rfl).1
    { host := "smtp.example.com", port := 587, username := "u"
      password := "pw", senderEmail := "send@example.com" }
    rfl).1

/-- C9: assembly never fails on a provider row with neither sub-record: the
row contributes zero view entries, and the views of all the other rows are
produced unchanged, in raw storage order. -/
theorem assembler_skips_empty_provider_row (p : ProjectDB)
    (xs ys : List OauthProviderConfigRow) (bad : OauthProviderConfigRow)
    (h1 : bad.proxiedOauthConfig = none) (h2 : bad.standardOauthConfig = none) :
    oauthProviderJsonFromDb bad = []
    ∧ (projectJsonFromDbType { p with oauthProviderConfigs := xs ++ bad :: ys }).evaluatedConfig.oauthProviders
        = (projectJsonFromDbType { p with oauthProviderConfigs := xs ++ ys }).evaluatedConfig.oauthProviders := by
  have hbad : oauthProviderJsonFromDb bad = [] := by
    simp [oauthProviderJsonFromDb, h1, h2]
  refine ⟨hbad, ?_⟩
  simp [projectJsonFromDbType, List.flatMap_append, List.flatMap_cons, hbad]

/-- Witness for C9: a provider row with both sub-records absent between two
healthy rows. -/
theorem assembler_skips_empty_provider_row_witness :
    (projectJsonFromDbType
      { project := exampleProjectRow
        oauthProviderConfigs :=
          [{ projectConfigId := "cfg-1", id := "gh",
             proxiedOauthConfig := some .GITHUB, standardOauthConfig := none },
           { projectConfigId := "cfg-1", id := "broken",
             proxiedOauthConfig := none, standardOauthConfig := none },
           { projectConfigId := "cfg-1", id := "goog",
             proxiedOauthConfig := some .GOOGLE, standardOauthConfig := none }]
        emailServiceConfig := none
        domains := [] }).evaluatedConfig.oauthProviders
      = [{ id := "gh", type := "shared-github" }, { id := "goog", type := "shared-google" }] :=
  ((assembler_skips_empty_provider_row
      { project := exampleProjectRow
        oauthProviderConfigs :=
          [{ projectConfigId := "cfg-1", id := "gh",
             proxiedOauthConfig := some .GITHUB, standardOauthConfig := none },
           { projectConfigId := "cfg-1", id := "broken",
             proxiedOauthConfig := none, standardOauthConfig := none },
           { projectConfigId := "cfg-1", id := "goog",
             proxiedOauthConfig := some .GOOGLE, standardOauthConfig := none }]
        emailServiceConfig := none
        domains := [] }
      [{ projectConfigId := "cfg-1", id := "gh",
         proxiedOauthConfig := some .GITHUB, standardOauthConfig := none }]
      [{ projectConfigId := "cfg-1", id := "goog",
         proxiedOauthConfig := some .GOOGLE, standardOauthConfig := none }]
      { projectConfigId := "cfg-1", id := "broken",
        proxiedOauthConfig := none, standardOauthConfig := none }
      rfl rfl).2).trans rfl

/-- C10: `getProject` is the reconciler at the empty update, and the empty
reconciliation writes nothing and returns exactly the assembled lookup. -/
theorem getProject_is_empty_update (s : Store) (projectId : String) :
    getProject s projectId = updateProject s projectId {}
    ∧ updateProject s projectId {} = getProjectSpec s projectId := by
  refine ⟨rfl, ?_⟩
  unfold updateProject getProjectSpec
  cases h : findFullProject s projectId with
  | none => simp [h]
  | some proj => simp [h]
